import Mathlib

/-!
Verification of the Kdrama dashboard's data pipeline
(`streamlit_kdrama_dashboard.py`).

The dashboard has two computational parts:

* a title search: `df[df['Name'].str.contains(search_query, case=False,
  na=False)]` when the query is non-empty, `df.head(10)` otherwise;
* an aggregation pipeline: filter by year range, then
  `str.split(',')` / `explode` / `str.strip()` on the selected role column,
  `groupby` with `mean`/`count` aggregation of `Rating`, then
  `sort_values(metric, ascending=False).head(15)`.

Modelling conventions:

* a dataframe is a `List DramaRecord` in row order; ratings are `ℚ`
  (the CSV's rating column is numeric and present), the role columns and
  the name column are `Option String` (`none` models a NaN cell);
* `str.split(',')` is `String.splitOn ","` (Python and Lean agree, in
  particular `"".split(',') == [""]`); `str.strip()` is `String.trim`;
  a NaN role cell passes through `split`/`explode`/`strip` as a single
  NaN row, which `groupby` then drops (`dropna=True` default);
* `groupby` emits groups in ascending lexicographic key order
  (`sort=True` default); `agg('mean'/'count')` over an always-present
  rating column is sum/size and size;
* `sort_values(..., ascending=False)` is modelled as a stable descending
  sort (`List.insertionSort`).  The program's sort (numpy's default
  `kind='quicksort'`) is stable only below its small-array cutoff, so the
  relative order of tied rows is unspecified in general; the stable
  choice here is one determinisation of it.  Accordingly, only
  conclusions that are invariant under the choice of a correct
  descending sort (length, membership, non-increasing key order,
  distinctness), or concrete evaluations small enough to fall below the
  cutoff, are read off this model — no theorem below asserts a
  universal tie order of the output;
* `Series.str.contains(pat, case=False, na=False)` treats `pat` as a
  regular expression (`regex=True` default) with `re.IGNORECASE`, and
  maps NaN names to `False`.  We model the regex dialect for patterns
  built from ordinary characters, `.` and backslash escapes; patterns
  using other metacharacters are outside the model and the search
  function returns `none` for them.
-/

namespace Kdrama

/-- One row of `kdrama.csv`, with the columns the dashboard reads:
`Name`, `Rank`, `Rating`, `Year of release`, `Director`, `Screenwriter`,
`Cast`.  Optional fields model NaN cells. -/
structure DramaRecord where
  name : Option String
  rank : Int
  rating : ℚ
  yearOfRelease : Int
  director : Option String
  screenwriter : Option String
  cast : Option String
deriving DecidableEq, Repr

/-- The sidebar's role selection (`"Director"`, `"Screenwriter"`, `"Cast"`). -/
inductive Role where
  | director
  | screenwriter
  | cast
deriving DecidableEq, Repr

/-- The sidebar's metric selection (`"Average Rating"`, `"Number of Dramas"`),
which picks the `avg_rating` or `drama_count` column as sort key. -/
inductive Metric where
  | averageRating
  | dramaCount
deriving DecidableEq, Repr

/-- `analysis_df[target_col]` for the selected role. -/
def roleField : Role → DramaRecord → Option String
  | Role.director, r => r.director
  | Role.screenwriter, r => r.screenwriter
  | Role.cast, r => r.cast

/-- `filtered_df = df[(df['Year of release'] >= year_range[0]) &
(df['Year of release'] <= year_range[1])]`. -/
def filtered_df (df : List DramaRecord) (yMin yMax : Int) : List DramaRecord :=
  df.filter fun r => decide (yMin ≤ r.yearOfRelease) && decide (r.yearOfRelease ≤ yMax)

/-- Python `str.split(',')` on the character list: split at every comma,
keeping empty pieces; `"".split(',') == [""]`, so the result is never
empty.  (Implemented structurally so that the kernel can evaluate it.) -/
def splitComma : List Char → List (List Char)
  | [] => [[]]
  | c :: cs =>
    let r := splitComma cs
    if c = ',' then [] :: r
    else (c :: r.headI) :: r.tail

/-- Drop leading whitespace characters. -/
def dropWs : List Char → List Char
  | [] => []
  | c :: cs => if c.isWhitespace then dropWs cs else c :: cs

/-- Python `str.strip()`: remove leading and trailing whitespace. -/
def stripChars (l : List Char) : List Char :=
  (dropWs (dropWs l).reverse).reverse

/-- `str.split(',')` followed by elementwise `str.strip()`
(the `split` / `explode` / `strip` steps, seen from one cell). -/
def splitTrim (s : String) : List String :=
  (splitComma s.toList).map fun l => String.mk (stripChars l)

/-- The rows of `analysis_df` after
`str.split(',')` / `explode` / `str.strip()` on the role column: each row
carries the (possibly NaN) contributor-name cell and the record's rating.
A record with a NaN role cell contributes a single row with a NaN key
(`split` of NaN is NaN and `explode` keeps it as one row). -/
def analysisRows (df : List DramaRecord) (role : Role) : List (Option String × ℚ) :=
  df.flatMap fun r =>
    match roleField role r with
    | none => [(none, r.rating)]
    | some s => (splitTrim s).map fun t => (some t, r.rating)

/-- Python's `<` on strings: lexicographic comparison by code point.
This is the order pandas uses to sort the group keys. -/
def lexLt : List Char → List Char → Bool
  | [], [] => false
  | [], _ :: _ => true
  | _ :: _, [] => false
  | a :: as, b :: bs => if a = b then lexLt as bs else decide (a < b)

/-- Strict key order on strings (Python `s < t`). -/
def strLt (s t : String) : Bool := lexLt s.toList t.toList

/-- The corresponding `≤`, used as the sorting relation. -/
def strLe (s t : String) : Bool := !(strLt t s)

/-- The distinct group keys of `groupby(target_col)`, in ascending
lexicographic order (pandas `sort=True` default); NaN keys are dropped
(`dropna=True` default). -/
def groupKeys (rows : List (Option String × ℚ)) : List String :=
  ((rows.filterMap Prod.fst).dedup).insertionSort fun a b => strLe a b = true

/-- The ratings of the rows grouped under key `k`. -/
def groupRatings (rows : List (Option String × ℚ)) (k : String) : List ℚ :=
  rows.filterMap fun p => if p.1 = some k then some p.2 else none

/-- One row of `stats`: the group key together with
`avg_rating=('Rating','mean')` and `drama_count=('Rating','count')`. -/
structure ContributorStat where
  name : String
  avg_rating : ℚ
  drama_count : ℕ
deriving DecidableEq, Repr

/-- The aggregation of one group. -/
def mkStat (rows : List (Option String × ℚ)) (k : String) : ContributorStat :=
  let rs := groupRatings rows k
  { name := k, avg_rating := rs.sum / rs.length, drama_count := rs.length }

/-- `stats = analysis_df.groupby(target_col).agg(...).reset_index()`:
one aggregated row per distinct non-NaN key, in ascending key order. -/
def stats (rows : List (Option String × ℚ)) : List ContributorStat :=
  (groupKeys rows).map (mkStat rows)

/-- The sort key column chosen by the metric (`plot_x`):
`avg_rating` or `drama_count` (as a rational, for uniform comparison). -/
def metricValue : Metric → ContributorStat → ℚ
  | Metric.averageRating, s => s.avg_rating
  | Metric.dramaCount, s => (s.drama_count : ℚ)

/-- `plot_df = stats.sort_values(plot_x, ascending=False).head(15)`.
The descending sort is keyed only on the metric column; the order of
tied rows is unspecified in the program (numpy quicksort), and the
stable sort used here is one determinisation of it (exact below numpy's
small-array cutoff). -/
def plot_df (st : List ContributorStat) (m : Metric) : List ContributorStat :=
  (st.insertionSort fun a b => metricValue m b ≤ metricValue m a).take 15

/-- The whole aggregation pipeline, from the loaded dataframe and the
sidebar parameters to the rows handed to the bar chart. -/
def pipeline (df : List DramaRecord) (yMin yMax : Int) (role : Role) (m : Metric) :
    List ContributorStat :=
  plot_df (stats (analysisRows (filtered_df df yMin yMax) role)) m

/-! ### Title search

`df[df['Name'].str.contains(search_query, case=False, na=False)]` for a
non-empty query, `df.head(10)` otherwise.  `Series.str.contains` treats
the query as a regular expression (`regex=True` default), matched with
`re.IGNORECASE` anywhere in the string (`re.search`), and a NaN name
yields `False` (`na=False`).

We model the regex dialect for patterns built from ordinary characters,
`.`, and backslash escapes of non-alphanumeric characters.  Patterns
using any other metacharacter (`^ $ * + ? ( ) [ ] | \x7b \x7d`, or an
alphanumeric escape class such as `\d`) are outside the model:
`parseRegex` returns `none` for them, and so does the search function. -/

/-- One token of the modelled regex dialect. -/
inductive RTok where
  | lit (c : Char)
  | dot
deriving DecidableEq, Repr

/-- The characters `re` treats specially (`re.escape` escapes exactly
the non-alphanumeric, non-underscore printable set; these are the ones
with special meaning in a pattern). -/
def isMetaChar (c : Char) : Bool :=
  c ∈ ['.', '^', '$', '*', '+', '?', '(', ')', '[', ']', '|', '\\',
       Char.ofNat 0x7b, Char.ofNat 0x7d]

/-- Parse a pattern string into tokens of the modelled dialect:
`.` is a wildcard, `\c` for non-alphanumeric `c` is the literal `c`,
an ordinary character is itself; anything else is out of model. -/
def parseRegex : List Char → Option (List RTok)
  | [] => some []
  | c :: cs =>
    if c = '\\' then
      match cs with
      | [] => none
      | d :: ds =>
        if d.isAlphanum then none
        else (parseRegex ds).map fun ts => RTok.lit d :: ts
    else if c = '.' then (parseRegex cs).map fun ts => RTok.dot :: ts
    else if isMetaChar c then none
    else (parseRegex cs).map fun ts => RTok.lit c :: ts

/-- Whether one token matches one character, under `re.IGNORECASE`
(`.` matches any character except a newline; `re.MULTILINE`/`DOTALL`
are not set). -/
def tokMatch : RTok → Char → Bool
  | RTok.lit l, c => l.toLower = c.toLower
  | RTok.dot, c => c ≠ '\n'

/-- Whether the token list matches a prefix of the character list. -/
def matchHere : List RTok → List Char → Bool
  | [], _ => true
  | _ :: _, [] => false
  | t :: ts, c :: cs => tokMatch t c && matchHere ts cs

/-- `re.search`: the token list matches somewhere in the string. -/
def reSearch (ts : List RTok) : List Char → Bool
  | [] => matchHere ts []
  | c :: cs => matchHere ts (c :: cs) || reSearch ts (cs)

/-- `Series.str.contains(pat, case=False, na=False)` on one cell. -/
def naContains (ts : List RTok) : Option String → Bool
  | none => false
  | some s => reSearch ts s.toList

/-- The search view: for the empty query, `df.head(10)`; otherwise the
rows whose `Name` matches the query.  `none` means the query uses a
regex feature outside the modelled dialect. -/
def searchResults (df : List DramaRecord) (q : String) :
    Option (List DramaRecord) :=
  if q = "" then some (df.take 10)
  else (parseRegex q.toList).map fun ts => df.filter fun r => naContains ts r.name

/-! Spec-side definitions, used to compare the implementation against
the specification's words. -/

/-- Does `p` occur at the start of `l`? -/
def seqStarts : List Char → List Char → Bool
  | [], _ => true
  | _ :: _, [] => false
  | a :: as, b :: bs => a = b && seqStarts as bs

/-- Does `p` occur anywhere in `l` as a contiguous run? -/
def seqContains (p : List Char) : List Char → Bool
  | [] => seqStarts p []
  | b :: bs => seqStarts p (b :: bs) || seqContains p bs

/-- From the spec's words: `s` contains `q` as a case-insensitive
literal substring. -/
def specContainsCI (q s : String) : Bool :=
  seqContains (q.toList.map Char.toLower) (s.toList.map Char.toLower)

/-! ### Facts about the lexicographic key order -/

theorem lexLt_irrefl : ∀ l : List Char, lexLt l l = false
  | [] => rfl
  | c :: cs => by simp [lexLt, lexLt_irrefl cs]

theorem lexLt_trans : ∀ {l₁ l₂ l₃ : List Char},
    lexLt l₁ l₂ = true → lexLt l₂ l₃ = true → lexLt l₁ l₃ = true
  | [], [], _, h₁, _ => by simp [lexLt] at h₁
  | [], _ :: _, l₃, _, h₂ => by
    cases l₃ with
    | nil => simp [lexLt] at h₂
    | cons c cs => simp [lexLt]
  | _ :: _, [], _, h₁, _ => by simp [lexLt] at h₁
  | _ :: _, _ :: _, [], _, h₂ => by simp [lexLt] at h₂
  | a :: as, b :: bs, c :: cs, h₁, h₂ => by
    simp only [lexLt] at h₁ h₂ ⊢
    by_cases hab : a = b
    · subst hab
      simp only [if_pos rfl] at h₁
      by_cases hac : a = c
      · subst hac
        simp only [if_pos rfl] at h₂ ⊢
        exact lexLt_trans h₁ h₂
      · simpa [hac] using by simpa [hac] using h₂
    · simp only [if_neg hab, decide_eq_true_eq] at h₁
      by_cases hbc : b = c
      · subst hbc
        simpa [hab] using h₁
      · simp only [if_neg hbc, decide_eq_true_eq] at h₂
        have hac : a < c := lt_trans h₁ h₂
        simp [ne_of_lt hac, hac]

theorem lexLt_trichotomy : ∀ l₁ l₂ : List Char,
    l₁ = l₂ ∨ lexLt l₁ l₂ = true ∨ lexLt l₂ l₁ = true
  | [], [] => Or.inl rfl
  | [], _ :: _ => Or.inr (Or.inl (by simp [lexLt]))
  | _ :: _, [] => Or.inr (Or.inr (by simp [lexLt]))
  | a :: as, b :: bs => by
    by_cases hab : a = b
    · subst hab
      rcases lexLt_trichotomy as bs with h | h | h
      · exact Or.inl (by rw [h])
      · exact Or.inr (Or.inl (by simp [lexLt, h]))
      · exact Or.inr (Or.inr (by simp [lexLt, h]))
    · rcases lt_trichotomy a b with h | h | h
      · exact Or.inr (Or.inl (by simp [lexLt, hab, h]))
      · exact absurd h hab
      · exact Or.inr (Or.inr (by simp [lexLt, Ne.symm hab, h]))

theorem strLt_irrefl (s : String) : strLt s s = false :=
  lexLt_irrefl s.toList

theorem strLt_trans {s t u : String} (h₁ : strLt s t = true)
    (h₂ : strLt t u = true) : strLt s u = true :=
  lexLt_trans h₁ h₂

theorem strLt_trichotomy (s t : String) :
    s = t ∨ strLt s t = true ∨ strLt t s = true := by
  rcases lexLt_trichotomy s.toList t.toList with he | h | h
  · exact Or.inl (String.toList_inj.mp he)
  · exact Or.inr (Or.inl h)
  · exact Or.inr (Or.inr h)

theorem strLt_asymm {s t : String} (h : strLt s t = true) : strLt t s = false := by
  cases hts : strLt t s
  · rfl
  · have := strLt_trans h hts
    rw [strLt_irrefl] at this
    exact absurd this Bool.false_ne_true

theorem strLt_of_ne_of_not_lt {s t : String} (hne : s ≠ t)
    (h : strLt t s = false) : strLt s t = true := by
  rcases strLt_trichotomy s t with he | hlt | hgt
  · exact absurd he hne
  · exact hlt
  · exact absurd hgt (by simp [h])

theorem strLe_total (s t : String) : strLe s t = true ∨ strLe t s = true := by
  rcases hst : strLt t s
  · exact Or.inl (by simp [strLe, hst])
  · exact Or.inr (by simp [strLe, strLt_asymm hst])

theorem strLe_trans {s t u : String} (h₁ : strLe s t = true)
    (h₂ : strLe t u = true) : strLe s u = true := by
  simp only [strLe, Bool.not_eq_true'] at h₁ h₂ ⊢
  cases hus : strLt u s
  · rfl
  · exfalso
    rcases strLt_trichotomy t u with he | hlt | hgt
    · subst he
      exact absurd hus (by simp [h₁])
    · rcases strLt_trichotomy t s with he' | hlt' | hgt'
      · subst he'
        exact absurd hus (by simp [h₂])
      · exact absurd hlt' (by simp [h₁])
      · have := strLt_trans (strLt_trans hgt' hlt) hus
        rw [strLt_irrefl] at this
        exact absurd this Bool.false_ne_true
    · exact absurd hgt (by simp [h₂])

/-! ### Shape of the grouped statistics -/

instance : IsTotal String fun a b => strLe a b = true :=
  ⟨strLe_total⟩

instance : IsTrans String fun a b => strLe a b = true :=
  ⟨fun _ _ _ => strLe_trans⟩

instance (m : Metric) :
    IsTotal ContributorStat fun a b => metricValue m b ≤ metricValue m a :=
  ⟨fun a b => le_total (metricValue m b) (metricValue m a)⟩

instance (m : Metric) :
    IsTrans ContributorStat fun a b => metricValue m b ≤ metricValue m a :=
  ⟨fun _ _ _ h₁ h₂ => le_trans h₂ h₁⟩

theorem groupKeys_sorted (rows : List (Option String × ℚ)) :
    (groupKeys rows).Pairwise fun a b => strLe a b = true :=
  List.sorted_insertionSort _ _

theorem groupKeys_nodup (rows : List (Option String × ℚ)) :
    (groupKeys rows).Nodup :=
  (List.perm_insertionSort _ _).nodup_iff.mpr (List.nodup_dedup _)

theorem groupKeys_pairwise_lt (rows : List (Option String × ℚ)) :
    (groupKeys rows).Pairwise fun a b => strLt a b = true :=
  ((groupKeys_sorted rows).and (groupKeys_nodup rows)).imp fun h =>
    strLt_of_ne_of_not_lt h.2 (by simpa [strLe, Bool.not_eq_true'] using h.1)

theorem stats_map_name (rows : List (Option String × ℚ)) :
    (stats rows).map ContributorStat.name = groupKeys rows := by
  simp [stats, List.map_map, Function.comp_def, mkStat]

theorem stats_pairwise_name (rows : List (Option String × ℚ)) :
    (stats rows).Pairwise fun a b => strLt a.name b.name = true := by
  rw [stats]
  exact List.pairwise_map.mpr (by simpa [mkStat] using groupKeys_pairwise_lt rows)

/-! ### Counting across the split/group step -/

theorem length_groupRatings (rows : List (Option String × ℚ)) (k : String) :
    (groupRatings rows k).length = (rows.filterMap Prod.fst).count k := by
  induction rows with
  | nil => rfl
  | cons p t ih =>
    rcases p with ⟨o, q⟩
    cases o with
    | none => simpa [groupRatings, List.filterMap_cons] using ih
    | some s =>
      by_cases hs : s = k
      · subst hs
        simpa [groupRatings, List.filterMap_cons, List.count_cons] using ih
      · simpa [groupRatings, List.filterMap_cons, List.count_cons, hs] using ih

theorem sum_map_indicator {d : List String} {a : String} (hd : d.Nodup)
    (ha : a ∈ d) : (d.map fun k => if a = k then (1 : ℕ) else 0).sum = 1 := by
  induction d with
  | nil => cases ha
  | cons b s ih =>
    rcases List.nodup_cons.mp hd with ⟨hbs, hs⟩
    rcases List.mem_cons.mp ha with rfl | has
    · have hz : ((s.map fun k => if a = k then (1 : ℕ) else 0)).sum = 0 :=
        List.sum_eq_zero fun x hx => by
          rcases List.mem_map.mp hx with ⟨k, hk, rfl⟩
          exact if_neg (by rintro rfl; exact hbs hk)
      simp [hz]
    · have hne : ¬a = b := by
        rintro rfl
        exact hbs has
      simp [hne, ih hs has]

theorem sum_map_add_nat {α : Type} (l : List α) (f g : α → ℕ) :
    (l.map fun x => f x + g x).sum = (l.map f).sum + (l.map g).sum := by
  induction l with
  | nil => rfl
  | cons a t ih =>
    simp only [List.map_cons, List.sum_cons, ih]
    omega

theorem sum_count_of_nodup (d : List String) (l : List String) (hd : d.Nodup)
    (hl : ∀ x ∈ l, x ∈ d) : (d.map fun k => l.count k).sum = l.length := by
  induction l with
  | nil => simp
  | cons a t ih =>
    have h1 : (d.map fun k => (a :: t).count k).sum
        = (d.map fun k => t.count k + if a = k then 1 else 0).sum := by
      congr 1
      exact List.map_congr_left fun k _ => by simp [List.count_cons]
    rw [h1, sum_map_add_nat, ih fun x hx => hl x (List.mem_cons_of_mem _ hx),
      sum_map_indicator hd (hl a (List.mem_cons_self _ _))]
    simp

theorem stats_dramaCount_sum (rows : List (Option String × ℚ)) :
    ((stats rows).map ContributorStat.drama_count).sum
      = (rows.filterMap Prod.fst).length := by
  rw [stats, List.map_map]
  have h1 : ((groupKeys rows).map (ContributorStat.drama_count ∘ mkStat rows)).sum
      = ((groupKeys rows).map fun k => (rows.filterMap Prod.fst).count k).sum := by
    congr 1
    exact List.map_congr_left fun k _ => by
      simp [mkStat, length_groupRatings]
  rw [h1]
  have hperm : List.Perm
      ((groupKeys rows).map fun k => (rows.filterMap Prod.fst).count k)
      (((rows.filterMap Prod.fst).dedup).map fun k => (rows.filterMap Prod.fst).count k) :=
    (List.perm_insertionSort _ _).map _
  rw [hperm.sum_eq]
  exact sum_count_of_nodup _ _ (List.nodup_dedup _) fun x hx => List.mem_dedup.mpr hx

/-- The number of comma-separated tokens a record contributes for a role:
zero for a NaN cell, the full token count (empty tokens included)
otherwise. -/
def tokenCount (role : Role) (r : DramaRecord) : ℕ :=
  match roleField role r with
  | none => 0
  | some s => (splitTrim s).length

theorem analysisRows_filterMap_length (df : List DramaRecord) (role : Role) :
    ((analysisRows df role).filterMap Prod.fst).length
      = (df.map (tokenCount role)).sum := by
  induction df with
  | nil => rfl
  | cons r t ih =>
    rw [analysisRows, List.flatMap_cons, List.filterMap_append, List.length_append,
      ← analysisRows, ih, List.map_cons, List.sum_cons]
    congr 1
    cases h : roleField role r with
    | none => simp [h, tokenCount]
    | some s =>
      simp only [h, tokenCount, List.filterMap_map]
      rw [show (Prod.fst ∘ fun t => ((some t : Option String), r.rating)) = some from rfl,
        List.filterMap_some]

/-! ### The modelled regex on metacharacter-free patterns is substring
containment -/

theorem parseRegex_of_no_meta : ∀ cs : List Char,
    (∀ c ∈ cs, isMetaChar c = false) → parseRegex cs = some (cs.map RTok.lit)
  | [], _ => rfl
  | c :: cs, h => by
    have hc : isMetaChar c = false := h c (List.mem_cons_self _ _)
    have hbs : ¬c = '\\' := by
      rintro rfl
      simp [isMetaChar] at hc
    have hdot : ¬c = '.' := by
      rintro rfl
      simp [isMetaChar] at hc
    rw [parseRegex.eq_def]
    simp [hbs, hdot, hc,
      parseRegex_of_no_meta cs fun d hd => h d (List.mem_cons_of_mem _ hd)]

theorem matchHere_lits : ∀ qs l : List Char,
    matchHere (qs.map RTok.lit) l = seqStarts (qs.map Char.toLower) (l.map Char.toLower)
  | [], l => by cases l <;> rfl
  | _ :: _, [] => rfl
  | q :: qs, c :: cs => by
    show (tokMatch (RTok.lit q) c && matchHere (qs.map RTok.lit) cs)
        = (decide (q.toLower = c.toLower)
            && seqStarts (qs.map Char.toLower) (cs.map Char.toLower))
    rw [matchHere_lits qs cs]
    rfl

theorem reSearch_lits : ∀ qs l : List Char,
    reSearch (qs.map RTok.lit) l = seqContains (qs.map Char.toLower) (l.map Char.toLower)
  | qs, [] => matchHere_lits qs []
  | qs, c :: cs => by
    show (matchHere (qs.map RTok.lit) (c :: cs) || reSearch (qs.map RTok.lit) cs)
        = (seqStarts (qs.map Char.toLower) (c.toLower :: cs.map Char.toLower)
            || seqContains (qs.map Char.toLower) (cs.map Char.toLower))
    rw [matchHere_lits qs (c :: cs), reSearch_lits qs cs]
    rfl

/-! ## The claims -/

/-- C1, counterexample: the claim says `"Kim A, Kim B,  "` yields exactly
2 assignments and that no group keyed `""` ever appears; the code's
`split`/`explode`/`strip` keeps the empty trimmed token, producing 3 rows,
and `""` shows up as a contributor group in the pipeline's output. -/
theorem C1_counterexample :
    ((analysisRows
        [⟨some "D", 1, 9, 2015, some "Kim A, Kim B,  ", none, none⟩]
        Role.director).countP fun p => p.1.isSome) = 3 ∧
      "" ∈ (pipeline
        [⟨some "D", 1, 9, 2015, some "Kim A, Kim B,  ", none, none⟩]
        2003 2022 Role.director Metric.dramaCount).map ContributorStat.name := by
  decide

/-- C1 (amended): a record with a missing (NaN) role field contributes no
grouped assignment; a record with a present role field contributes exactly
one grouped assignment per comma-separated token — all tokens counted,
including those that are empty after trimming, which are grouped under the
contributor name `""`. -/
theorem C1_assignment_count (r : DramaRecord) (role : Role) :
    ((analysisRows [r] role).countP fun p => p.1.isSome) = tokenCount role r := by
  cases h : roleField role r with
  | none =>
    simp [analysisRows, h, tokenCount]
  | some s =>
    rw [analysisRows, List.flatMap_cons, List.flatMap_nil, List.append_nil, h,
      List.countP_map, tokenCount.eq_def, h]
    show List.countP (fun _ => true) (splitTrim s) = (splitTrim s).length
    exact congrFun List.countP_true (splitTrim s)

/-- C2, counterexample: two contributors with equal metric values.  They
first appear in the input in the order `"B"`, `"A"`, but the pipeline
outputs `"A"` before `"B"` (the `groupby` emits groups in sorted key
order), so ties are not broken by input order. -/
theorem C2_counterexample :
    ((analysisRows (filtered_df
        [⟨some "E", 2, 9, 2015, some "B", none, none⟩,
          ⟨some "F", 3, 9, 2015, some "A", none, none⟩] 2003 2022)
        Role.director).filterMap Prod.fst = ["B", "A"]) ∧
      ((pipeline
        [⟨some "E", 2, 9, 2015, some "B", none, none⟩,
          ⟨some "F", 3, 9, 2015, some "A", none, none⟩]
        2003 2022 Role.director Metric.dramaCount).map
          (fun s => (s.name, s.drama_count)) = [("A", 1), ("B", 1)]) := by
  decide

/-- C2 (amended): tied groups are not listed in input (first-appearance)
order.  The `groupby` stage already discards input order: it delivers
the contributor groups to the metric sort in ascending lexicographic
name order, for every dataset, year range and role; and the sort is
keyed only on the metric value, so it gives no tie-order guarantee of
its own (at the counterexample the tied output is `A, B` against input
order `B, A`). -/
theorem C2_groupby_discards_input_order (df : List DramaRecord)
    (yMin yMax : Int) (role : Role) :
    (stats (analysisRows (filtered_df df yMin yMax) role)).Pairwise
      (fun a b => strLt a.name b.name = true) :=
  stats_pairwise_name (analysisRows (filtered_df df yMin yMax) role)

/-- C3: for valid parameters the pipeline's output has length
`min 15 (number of distinct contributor groups)`, is sorted in
non-increasing order of the selected metric, and no contributor name
appears twice. -/
theorem C3_output_shape (df : List DramaRecord) (yMin yMax : Int) (role : Role)
    (m : Metric) (h : yMin ≤ yMax) :
    (pipeline df yMin yMax role m).length
        = min 15 (stats (analysisRows (filtered_df df yMin yMax) role)).length ∧
      (pipeline df yMin yMax role m).Pairwise
        (fun a b => metricValue m b ≤ metricValue m a) ∧
      ((pipeline df yMin yMax role m).map ContributorStat.name).Nodup := by
  refine ⟨?_, ?_, ?_⟩
  · rw [pipeline, plot_df, List.length_take, List.length_insertionSort]
  · exact List.Pairwise.sublist (List.take_sublist _ _)
      (List.sorted_insertionSort _ _)
  · have h1 : ((stats (analysisRows (filtered_df df yMin yMax) role)).map
        ContributorStat.name).Nodup := by
      rw [stats_map_name]
      exact groupKeys_nodup _
    have hperm := (List.perm_insertionSort
        (fun a b => metricValue m b ≤ metricValue m a)
        (stats (analysisRows (filtered_df df yMin yMax) role))).map
        ContributorStat.name
    rw [pipeline, plot_df, List.map_take]
    exact List.Nodup.sublist (List.take_sublist _ _) (hperm.nodup_iff.mpr h1)

/-- Witness for C3 at a concrete input. -/
theorem C3_witness :
    (2003 : Int) ≤ 2022 ∧
      ((pipeline [⟨some "D", 1, 9, 2015, some "A, B", none, none⟩]
            2003 2022 Role.director Metric.dramaCount).length
          = min 15 (stats (analysisRows (filtered_df
              [⟨some "D", 1, 9, 2015, some "A, B", none, none⟩] 2003 2022)
              Role.director)).length ∧
        (pipeline [⟨some "D", 1, 9, 2015, some "A, B", none, none⟩]
            2003 2022 Role.director Metric.dramaCount).Pairwise
          (fun a b => metricValue Metric.dramaCount b
            ≤ metricValue Metric.dramaCount a) ∧
        ((pipeline [⟨some "D", 1, 9, 2015, some "A, B", none, none⟩]
            2003 2022 Role.director Metric.dramaCount).map
          ContributorStat.name).Nodup) :=
  ⟨by decide, C3_output_shape _ 2003 2022 Role.director Metric.dramaCount (by decide)⟩

/-- C4: the year filter keeps exactly the records whose year of release
lies within the inclusive bounds, and excludes no satisfying record. -/
theorem C4_year_filter (df : List DramaRecord) (yMin yMax : Int)
    (h : yMin ≤ yMax) (r : DramaRecord) :
    r ∈ filtered_df df yMin yMax ↔
      r ∈ df ∧ yMin ≤ r.yearOfRelease ∧ r.yearOfRelease ≤ yMax := by
  simp [filtered_df, List.mem_filter, and_assoc]

/-- Witness for C4 at a concrete input. -/
theorem C4_witness :
    (⟨some "D", 1, 9, 2015, some "A", none, none⟩ : DramaRecord) ∈
      filtered_df [⟨some "D", 1, 9, 2015, some "A", none, none⟩] 2003 2022 :=
  (C4_year_filter _ 2003 2022 (by decide) _).mpr ⟨by decide, by decide, by decide⟩

/-- C5, counterexample: `str.contains` interprets the query as a regular
expression, so the query `"."` matches the name `"Abc"` (a wildcard) even
though `"Abc"` does not contain the character `"."` as a literal
substring. -/
theorem C5_counterexample :
    searchResults [⟨some "Abc", 1, 9, 2020, none, none, none⟩] "."
        = some [⟨some "Abc", 1, 9, 2020, none, none, none⟩] ∧
      specContainsCI "." "Abc" = false := by
  decide

/-- C5 (amended): for a non-empty query containing no regex
metacharacter, the title search returns exactly the ordered subsequence
of records whose name contains the query as a case-insensitive literal
substring (a record with a NaN name never matches). -/
theorem C5_literal_query (df : List DramaRecord) (q : String) (h1 : q ≠ "")
    (h2 : ∀ c ∈ q.toList, isMetaChar c = false) :
    searchResults df q = some (df.filter fun r =>
      match r.name with
      | some s => specContainsCI q s
      | none => false) := by
  rw [searchResults, if_neg h1, parseRegex_of_no_meta q.toList h2, Option.map_some']
  congr 1
  refine List.filter_congr fun r _ => ?_
  cases hr : r.name with
  | none => rfl
  | some s =>
    show reSearch (q.toList.map RTok.lit) s.toList = specContainsCI q s
    rw [reSearch_lits, specContainsCI]

/-- Witness for C5 (amended) at a concrete input. -/
theorem C5_witness :
    ("ab" : String) ≠ "" ∧
      searchResults [⟨some "Abc", 1, 9, 2020, none, none, none⟩] "ab"
        = some (([⟨some "Abc", 1, 9, 2020, none, none, none⟩] :
            List DramaRecord).filter fun r =>
          match r.name with
          | some s => specContainsCI "ab" s
          | none => false) :=
  ⟨by decide, C5_literal_query _ "ab" (by decide) (by decide)⟩

/-- C6, counterexample: for a reversed year range the pipeline does not
fail — there is no `InvalidRange` check anywhere in the code — it
silently computes the empty result. -/
theorem C6_counterexample :
    pipeline [⟨some "D", 1, 9, 2015, some "A", none, none⟩]
      2022 2003 Role.director Metric.averageRating = [] := by
  decide

/-- C6 (amended): for `yearMax < yearMin` the pipeline performs no
validation and silently returns the empty result (no record satisfies
both bounds); no error is raised. -/
theorem C6_reversed_range (df : List DramaRecord) (yMin yMax : Int)
    (role : Role) (m : Metric) (h : yMax < yMin) :
    pipeline df yMin yMax role m = [] := by
  have hf : filtered_df df yMin yMax = [] :=
    List.filter_eq_nil_iff.mpr fun r _ => by
      simp only [Bool.and_eq_true, decide_eq_true_eq, not_and]
      intro h1 h2
      omega
  rw [pipeline, hf]
  rfl

/-- Witness for C6 (amended) at a concrete input. -/
theorem C6_witness :
    (2003 : Int) < 2022 ∧
      pipeline [⟨some "D", 1, 9, 2015, some "A", none, none⟩]
        2022 2003 Role.director Metric.dramaCount = [] :=
  ⟨by decide, C6_reversed_range _ 2022 2003 Role.director Metric.dramaCount (by decide)⟩

/-- C7, counterexample: for the role field `"A,  "` the code's group
counts sum to 2 (the empty trimmed token is grouped under `""`), while
the number of non-empty trimmed tokens is 1, so the conservation law as
claimed (against non-empty tokens) fails. -/
theorem C7_counterexample :
    ((stats (analysisRows (filtered_df
        [⟨some "D", 1, 9, 2015, some "A,  ", none, none⟩] 2003 2022)
        Role.director)).map ContributorStat.drama_count).sum = 2 ∧
      ((splitTrim "A,  ").filter fun t => decide (t ≠ "")).length = 1 := by
  decide

/-- C7 (amended): the sum of `drama_count` over all contributor groups
equals the sum over the year-filtered records of the total number of
comma-separated tokens of the role field (all tokens, empty ones
included; a missing role field contributes zero). -/
theorem C7_conservation (df : List DramaRecord) (yMin yMax : Int) (role : Role) :
    ((stats (analysisRows (filtered_df df yMin yMax) role)).map
        ContributorStat.drama_count).sum
      = ((filtered_df df yMin yMax).map (tokenCount role)).sum := by
  rw [stats_dramaCount_sum, analysisRows_filterMap_length]

/-- C8: for the empty query the search view returns the first 10 records
of the dataset, unmodified and in dataset order, regardless of their
rating or rank values. -/
theorem C8_empty_query (df : List DramaRecord) :
    searchResults df "" = some (df.take 10) := rfl

/-- C9: when no record falls inside the (valid) year range, the pipeline
returns the empty sequence for every role and metric; being a total
function, it raises no error. -/
theorem C9_empty_filter (df : List DramaRecord) (yMin yMax : Int) (role : Role)
    (m : Metric) (h : yMin ≤ yMax)
    (hex : ∀ r ∈ df, ¬(yMin ≤ r.yearOfRelease ∧ r.yearOfRelease ≤ yMax)) :
    pipeline df yMin yMax role m = [] := by
  have hf : filtered_df df yMin yMax = [] :=
    List.filter_eq_nil_iff.mpr fun r hr => by
      simpa using hex r hr
  rw [pipeline, hf]
  rfl

/-- Witness for C9 at a concrete input. -/
theorem C9_witness :
    (2016 : Int) ≤ 2022 ∧
      (∀ r ∈ [(⟨some "D", 1, 9, 2015, some "A", none, none⟩ : DramaRecord)],
        ¬((2016 : Int) ≤ r.yearOfRelease ∧ r.yearOfRelease ≤ 2022)) ∧
      pipeline [⟨some "D", 1, 9, 2015, some "A", none, none⟩]
        2016 2022 Role.director Metric.averageRating = [] :=
  ⟨by decide, by decide,
    C9_empty_filter _ 2016 2022 Role.director Metric.averageRating
      (by decide) (by decide)⟩

/-- C10: for a non-empty query (within the modelled regex dialect), a
record whose name cell is missing (NaN) is silently excluded from the
search result (`na=False`); the search is a total function, so no error
is raised. -/
theorem C10_missing_name (df : List DramaRecord) (q : String)
    (out : List DramaRecord) (r : DramaRecord) (hq : q ≠ "")
    (hres : searchResults df q = some out) (hr : r ∈ out) :
    r.name ≠ none := by
  rw [searchResults, if_neg hq] at hres
  rcases Option.map_eq_some'.mp hres with ⟨ts, _, hout⟩
  subst hout
  have hmem := (List.mem_filter.mp hr).2
  intro hn
  rw [hn] at hmem
  simp [naContains] at hmem

/-- Witness for C10 at a concrete input. -/
theorem C10_witness :
    (⟨some "Abc", 1, 9, 2020, none, none, none⟩ : DramaRecord).name ≠ none :=
  C10_missing_name
    [⟨some "Abc", 1, 9, 2020, none, none, none⟩,
      ⟨none, 2, 8, 2015, none, none, none⟩]
    "a" [⟨some "Abc", 1, 9, 2020, none, none, none⟩] _
    (by decide) (by decide) (by decide)

end Kdrama
